import Mathlib

/-!
A verification development for the data-aware routing engine of this
repository: the client-side router and the static handler exercised by
src/packages/router/__tests__/router-test.ts. The engine itself ships
outside src, so every definition below is modelled from the
specification document, and, where the specification is silent or is
contradicted by the pinned behavior of the test suite, from the concrete
expectations the tests state. Each model is a small executable function
or transition system; the theorems settle the stated properties of the
engine against these models.
-/

namespace RouterModel

/-- Modelled from the spec: a JavaScript value that a route level
shouldRevalidate predicate may return. The engine only honors strict
booleans; every other value defers to the default policy. -/
inductive SRValue where
  | bool (b : Bool)
  | null
  | undefined
  | str (s : String)
  | num (n : Int)
deriving DecidableEq

/-- Modelled from the spec: the per-route facts the default revalidation
policy examines on a transition (spec 4.4, Default policy). -/
structure LoaderContext where
  isNewRoute : Bool
  paramsChanged : Bool
  searchChanged : Bool
  hashChanged : Bool
  submissionProcessed : Bool
  revalidateHeaderSeen : Bool
  sameUrl : Bool
deriving DecidableEq

/-- Modelled from the spec: the default revalidation policy, true when the
loader of a matched route must run on this transition (spec 4.4). -/
def defaultShouldRevalidate (c : LoaderContext) : Bool :=
  c.isNewRoute || c.paramsChanged || c.searchChanged ||
    (c.hashChanged && c.isNewRoute) || c.submissionProcessed ||
    c.revalidateHeaderSeen || c.sameUrl

/-- Modelled from the spec: only a strict boolean returned from a route
shouldRevalidate overrides the default decision; any other value,
truthy or falsy, defers to the default (spec 4.4, Override). -/
def applyRevalidateOverride (ret : Option SRValue) (dflt : Bool) : Bool :=
  match ret with
  | some (SRValue.bool b) => b
  | _ => dflt

/-- The revalidation planner decision for one route: the default policy
combined with the optional shouldRevalidate return value. -/
def shouldRunLoader (c : LoaderContext) (ret : Option SRValue) : Bool :=
  applyRevalidateOverride ret (defaultShouldRevalidate c)

/-- A context under which the default policy mandates revalidation. -/
def ctxDefaultTrue : LoaderContext :=
  ⟨true, false, false, false, false, false, false⟩

/-- A context of a reused route for which the default policy skips the
loader. -/
def ctxDefaultFalse : LoaderContext :=
  ⟨false, false, false, false, false, false, false⟩

/-- Modelled from the spec: a redirect response observed from a loader,
carrying the target location and the response headers (spec 4.5,
Redirects). -/
structure RedirectResponse where
  location : String
  headers : List (String × String)
deriving DecidableEq

/-- ASCII lowercasing of one character, used for the case-insensitive
header comparison. -/
def asciiLowerChar (c : Char) : Char :=
  if 65 ≤ c.toNat && c.toNat ≤ 90 then Char.ofNat (c.toNat + 32) else c

/-- Case-insensitive comparison of a header name against an already
lowercased target. -/
def headerNameMatches (name target : String) : Bool :=
  name.data.map asciiLowerChar == target.data

/-- Modelled from the spec: the X-Remix-Revalidate header lookup is case
insensitive (spec 4.4). -/
def hasRevalidateHeader (hs : List (String × String)) : Bool :=
  hs.any fun p => headerNameMatches p.1 "x-remix-revalidate"

/-- Modelled from the test suite (chained redirects): the engine keeps a
pending forced-revalidation flag that is raised when a redirect response
carries X-Remix-Revalidate and cleared only when a navigation completes,
so it persists across later redirects of the same chain. This returns,
for each follow-up navigation of a redirect chain, the flag in force
while its loaders are planned. -/
def chainRevalidateFlags (flag : Bool) : List RedirectResponse → List Bool
  | [] => []
  | r :: rest =>
    let f := flag || hasRevalidateHeader r.headers
    f :: chainRevalidateFlags f rest

/-- The planner context of a route reused unchanged by a redirect
follow-up navigation: nothing changed except possibly the pending
forced-revalidation flag. -/
def reusedRouteCtx (flag : Bool) : LoaderContext :=
  ⟨false, false, false, false, false, flag, false⟩

/-- The concrete chain of the chained-redirects test: a first redirect
carrying X-Remix-Revalidate followed by a second redirect without it. -/
def testRedirectChain : List RedirectResponse :=
  [⟨"/bar", [("X-Remix-Revalidate", "yes")]⟩, ⟨"/baz", []⟩]

/-- Modelled from the spec: the per-route facts of a matched route that
the error and loading pipeline consults (spec 3, Route). The matches
list is ordered root first, leaf last. -/
structure RouteEntry where
  id : String
  hasLoader : Bool
  hasAction : Bool
  hasErrorBoundary : Bool
deriving DecidableEq

/-- Modelled from the spec: the shape of an ErrorResponse synthesized by
the engine (spec 6, Error response shape). -/
structure ErrorResp where
  status : Nat
  statusText : String
  data : String
deriving DecidableEq

/-- Index of the deepest matched route flagged as an error boundary, if
any route carries the flag. -/
def lastBoundaryIdx : List RouteEntry → Option Nat
  | [] => none
  | r :: rest =>
    match lastBoundaryIdx rest with
    | some i => some (i + 1)
    | none => if r.hasErrorBoundary then some 0 else none

/-- Modelled from the spec and tests: for an error raised at the leaf the
nearest boundary is the deepest matched route flagged with
hasErrorBoundary, the leaf itself included; when none carries the flag
the root route at index 0 is used implicitly (spec 3, Invariants; the
405 and 400 tests key the error at the leaf itself when it carries the
flag). -/
def nearestBoundaryIdx (ms : List RouteEntry) : Nat :=
  (lastBoundaryIdx ms).getD 0

/-- The id of the route acting as the nearest boundary. -/
def boundaryIdOf (ms : List RouteEntry) : Option String :=
  (ms[nearestBoundaryIdx ms]?).map (·.id)

/-- Modelled from the spec: when an error is keyed at the boundary, only
the loaders of the routes strictly above the boundary run (spec 4.5 and
7, Propagation policy). -/
def loadersAboveBoundary (ms : List RouteEntry) : List String :=
  ((ms.take (nearestBoundaryIdx ms)).filter (·.hasLoader)).map (·.id)

/-- The committed outcome of a navigation that short-circuits with a
synthesized error before any action or target loader runs. -/
structure ErrorShortCircuit where
  errors : Option (String × ErrorResp)
  actionData : Option (String × String)
  loadersToRun : List String
deriving DecidableEq

/-- Modelled from the spec: a non-GET navigation whose leaf match has no
action synthesizes a 405 ErrorResponse keyed at the nearest boundary,
leaves actionData null and plans only the loaders above the boundary
(spec 4.5, 405). -/
def make405 (ms : List RouteEntry) (path : String) : ErrorShortCircuit :=
  { errors := (boundaryIdOf ms).map fun b =>
      (b, ⟨405, "Method Not Allowed", "No action found for [" ++ path ++ "]"⟩),
    actionData := none,
    loadersToRun := loadersAboveBoundary ms }

/-- Modelled from the spec: a GET submission with a binary form field
fails synchronously with a 400 ErrorResponse keyed at the nearest
boundary, searched from the targeted leaf upward, the leaf itself
included; actionData stays null and only the loaders above the boundary
run (spec 4.2; the 400 tests). -/
def make400 (ms : List RouteEntry) : ErrorShortCircuit :=
  { errors := (boundaryIdOf ms).map fun b =>
      (b, ⟨400, "Bad Request", "Cannot submit binary form data using GET"⟩),
    actionData := none,
    loadersToRun := loadersAboveBoundary ms }

/-- Dispatch of a non-GET navigation: the action phase when the leaf has
an action, the 405 error path otherwise. -/
inductive SubmitDispatch where
  | actionPhase
  | errorOutcome (o : ErrorShortCircuit)
deriving DecidableEq

/-- Modelled from the spec: a non-GET navigation runs the leaf action if
one exists, otherwise it takes the 405 error path; an empty match list
is the 404 case, outside this model. -/
def startSubmitNavigation (ms : List RouteEntry) (path : String) :
    Option SubmitDispatch :=
  match ms.getLast? with
  | some leaf =>
    some (if leaf.hasAction then SubmitDispatch.actionPhase
          else SubmitDispatch.errorOutcome (make405 ms path))
  | none => none

/-- Whether the leaf match exposes an action. -/
def leafHasAction (ms : List RouteEntry) : Bool :=
  ((ms.getLast?).map (·.hasAction)).getD false

/-- Modelled from the spec: one field of a FormData body, either text or
a binary blob (spec 4.2). -/
inductive FormField where
  | text (name value : String)
  | blob (name : String)
deriving DecidableEq

/-- Whether any form field is binary. -/
def hasBinaryField (fields : List FormField) : Bool :=
  fields.any fun f => match f with | FormField.blob _ => true | _ => false

/-- Dispatch of a GET submission: serialize the form into the URL query
and enter the loading phase, unless a binary field forces the 400 error
path. -/
inductive GetSubmitDispatch where
  | loadingPhase
  | errorOutcome (o : ErrorShortCircuit)
deriving DecidableEq

/-- Modelled from the spec: GET submissions with any binary field fail
synchronously with the 400 error outcome (spec 4.2). -/
def startGetSubmission (ms : List RouteEntry) (fields : List FormField) :
    GetSubmitDispatch :=
  if hasBinaryField fields then GetSubmitDispatch.errorOutcome (make400 ms)
  else GetSubmitDispatch.loadingPhase

/-- The match list of the 405 test: parent and child with loaders, a
grandchild leaf with loader and boundary flag but no action. -/
def matches405 : List RouteEntry :=
  [⟨"parent", true, false, false⟩, ⟨"child", true, false, false⟩,
   ⟨"grandchild", true, false, true⟩]

/-- The match list of the binary GET test: parent with loader, child leaf
with loader and the error boundary flag; the submission targets the
child. -/
def matches400 : List RouteEntry :=
  [⟨"parent", true, false, false⟩, ⟨"child", true, false, true⟩]

/-- The form data of the binary GET test: one blob field. -/
def binaryFields : List FormField := [FormField.blob "blob"]

/-- Modelled from the spec: a location; the opaque key is modelled as a
counter, the initial entry having key 0 (spec 3, Location). -/
structure Location where
  pathname : String
  search : String
  hash : String
  key : Nat
deriving DecidableEq

/-- Modelled from the spec: the observable navigation states (spec 3,
Navigation). -/
inductive NavState where
  | idle
  | loading
  | submitting
deriving DecidableEq

/-- One matched route of a GET navigation, with the planner facts of the
transition and the value its shouldRevalidate returned, if any. -/
structure PlannedRoute where
  id : String
  ctx : LoaderContext
  srReturn : Option SRValue
deriving DecidableEq

/-- The observable outcome of a GET navigation: the navigation states a
subscriber observes strictly between the call and the final idle commit,
the committed location, and the loaders that ran. -/
structure GetNavOutcome where
  observedStates : List NavState
  committed : Location
  loadersRun : List String
deriving DecidableEq

/-- Modelled from the spec: a GET navigation to a target that differs
from the current location only in its hash completes synchronously with
no loader run, no loading state observed and a fresh key; any other GET
navigation enters loading and runs the planned loaders (spec 4.5,
Hash-only navigations). -/
def navigateGet (cur : Location) (toPathname toSearch toHash : String)
    (routes : List PlannedRoute) : GetNavOutcome :=
  if toPathname = cur.pathname ∧ toSearch = cur.search ∧ toHash ≠ cur.hash then
    { observedStates := [],
      committed := ⟨toPathname, toSearch, toHash, cur.key + 1⟩,
      loadersRun := [] }
  else
    { observedStates := [NavState.loading],
      committed := ⟨toPathname, toSearch, toHash, cur.key + 1⟩,
      loadersRun := routes.filterMap fun r =>
        if shouldRunLoader r.ctx r.srReturn then some r.id else none }

/-- The initial location of the hash-change test: the root path with the
default key. -/
def hashTestCur : Location := ⟨"/", "", "", 0⟩

/-- The root route of the hash-change test, reused unchanged by the
navigation. -/
def hashTestRoutes : List PlannedRoute :=
  [⟨"root", ⟨false, false, false, true, false, false, false⟩, none⟩]

/-- Modelled from the spec: the history commit actions (spec 3,
RouterState). -/
inductive HistoryAction where
  | pop
  | push
  | replace
deriving DecidableEq

/-- The facts the engine consults when committing a completed navigation
to history (spec 4.5, History commit). -/
structure CommitInput where
  isInitial : Bool
  isPop : Bool
  replaceRequested : Bool
  samePath : Bool
deriving DecidableEq

/-- Modelled from the spec (history commit) and the test suite (POP
navigations across action redirects): initial transitions commit POP,
POP navigations stay POP, and client navigations commit PUSH unless
replace was requested or the destination equals the current location. A
redirect follow-up inherits replaceRequested from the navigation that
triggered it, so an action redirect commits REPLACE only when the
submission itself requested replace. -/
def commitHistoryAction (c : CommitInput) : HistoryAction :=
  if c.isInitial then HistoryAction.pop
  else if c.isPop then HistoryAction.pop
  else if c.replaceRequested then HistoryAction.replace
  else if c.samePath then HistoryAction.replace
  else HistoryAction.push

/-- The commit input of the follow-up navigation of an action redirect to
a new path, with the replace request of the triggering submission. -/
def actionRedirectCommit (replaceRequested : Bool) : CommitInput :=
  ⟨false, false, replaceRequested, false⟩

/-- A memory history stack: the entries and the current index. -/
structure HistoryStack where
  entries : List String
  index : Nat
deriving DecidableEq

/-- Modelled from the history adapter: push drops forward entries and
appends, replace overwrites the current entry, pop keeps the stack. -/
def applyHistory (h : HistoryStack) (a : HistoryAction) (path : String) :
    HistoryStack :=
  match a with
  | HistoryAction.push => ⟨h.entries.take (h.index + 1) ++ [path], h.index + 1⟩
  | HistoryAction.replace => ⟨h.entries.set h.index path, h.index⟩
  | HistoryAction.pop => h

/-- The entry a POP of delta minus one lands on. -/
def backEntry (h : HistoryStack) : Option String := h.entries[h.index - 1]?

/-- The history evolution of the action-redirect test: start at the root,
push foo, push bar, submit at bar, and the action redirects to baz; the
redirect commit uses the decision for an action redirect with the given
replace request. -/
def actionRedirectScenario (replaceRequested : Bool) : HistoryStack :=
  let h0 : HistoryStack := ⟨["/"], 0⟩
  let h1 := applyHistory h0 HistoryAction.push "/foo"
  let h2 := applyHistory h1 HistoryAction.push "/bar"
  applyHistory h2 (commitHistoryAction (actionRedirectCommit replaceRequested)) "/baz"

/-- Modelled from the spec: hydration data handed to the engine factory,
keyed by route id (spec 6, Hydration data). -/
structure HydrationData where
  loaderData : List (String × String)
  errors : Option (List (String × String))
deriving DecidableEq

/-- Modelled from the test suite (treats hydration data covering only
some routes as initialized): the engine reports itself ready when no
matched route has a loader or when any hydration data at all was
supplied. -/
def routerReady (ms : List RouteEntry) (hd : Option HydrationData) : Bool :=
  !(ms.any (·.hasLoader)) || hd.isSome

/-- Modelled from the test suite: the initial data load runs the loaders
of all matched loader routes, and runs nothing at all when the engine is
already ready. -/
def initialLoadPlan (ms : List RouteEntry) (hd : Option HydrationData) :
    List String :=
  if routerReady ms hd then [] else (ms.filter (·.hasLoader)).map (·.id)

/-- The matched routes of the hydration test: parent with id 0 and child
with id 0-0, both with loaders. -/
def hydrationMatches : List RouteEntry :=
  [⟨"0", true, false, false⟩, ⟨"0-0", true, false, false⟩]

/-- The hydration data of the test: loader data for the parent only, no
errors. -/
def hydrationParentOnly : HydrationData := ⟨[("0", "PARENT DATA")], none⟩

/-- Modelled from the spec: the result of one loader or action in the
static handler pipeline: a successful response with its status, a thrown
Response wrapped with its status, or a thrown non-Response error
(spec 4.7). -/
inductive DataResult where
  | ok (status : Nat)
  | errorResponse (status : Nat)
  | errorThrown
deriving DecidableEq

/-- Whether a result is an error. -/
def isErrorResult : DataResult → Bool
  | DataResult.ok _ => false
  | _ => true

/-- The status an error result contributes: the response status for a
thrown Response and 500 for an uncaught non-Response error. -/
def errorStatusOf : DataResult → Option Nat
  | DataResult.ok _ => none
  | DataResult.errorResponse s => some s
  | DataResult.errorThrown => some 500

/-- The status of a successful result. -/
def statusOfOk : DataResult → Option Nat
  | DataResult.ok s => some s
  | _ => none

/-- Modelled from the spec: with no error the context status is the
status of the deepest loader response, 200 by default; results are
listed root first, leaf last (spec 4.7, Status code). -/
def successStatus (rs : List DataResult) : Nat :=
  rs.foldl (fun acc r => match r with | DataResult.ok s => s | _ => acc) 200

/-- The error statuses contributed by a query, shallowest first: loader
errors in match order, then the action error, which sits at the leaf. -/
def errorStatuses (actionResult : Option DataResult)
    (loaderResults : List DataResult) : List Nat :=
  loaderResults.filterMap errorStatusOf ++
    (match actionResult with
     | some (DataResult.errorResponse s) => [s]
     | some DataResult.errorThrown => [500]
     | _ => [])

/-- Modelled from the spec: the statusCode of the static handler query
context: the action status when the submission succeeded; else the
shallowest error status, an uncaught non-Response error counting as 500;
else the deepest loader response status; 200 by default (spec 4.7,
Status code). -/
def queryStatusCode (actionResult : Option DataResult)
    (loaderResults : List DataResult) : Nat :=
  match actionResult with
  | some (DataResult.ok s) => s
  | _ =>
    match errorStatuses actionResult loaderResults with
    | [] => successStatus loaderResults
    | e :: _ => e

/-- Modelled from the spec: the events in the life of one fetcher key: a
new submission starts an operation with a fresh id, and an operation
settles with a result (spec 4.6, Ordering guarantees). -/
inductive FetchEvent where
  | start (id : Nat)
  | settle (id : Nat) (result : Nat)
deriving DecidableEq

/-- The per-key engine state: the inflight operation if any, the ids
whose abort signal has fired, and the committed fetcher data. -/
structure FetchState where
  inflight : Option Nat
  aborted : List Nat
  data : Option Nat
deriving DecidableEq

/-- Modelled from the spec: starting a new submission aborts any older
inflight operation of the same key; a settlement of an aborted operation
is discarded; a settlement of the live operation commits its result
(spec 4.6, Ordering guarantees; spec 5, Cancellation). -/
def fetchStep (s : FetchState) (e : FetchEvent) : FetchState :=
  match e with
  | FetchEvent.start id =>
    { inflight := some id,
      aborted := match s.inflight with
        | some j => j :: s.aborted
        | none => s.aborted,
      data := s.data }
  | FetchEvent.settle id r =>
    if id ∈ s.aborted then s
    else
      { inflight := if s.inflight = some id then none else s.inflight,
        aborted := s.aborted,
        data := some r }

/-- The state of one fetcher key after a trace of events. -/
def fetchRun (es : List FetchEvent) : FetchState :=
  es.foldl fetchStep ⟨none, [], none⟩

/-- Modelled from the spec and the cleanup test: the registry events
across fetcher keys: an operation starts on a key, the operation of a
key settles, or the fetcher is deleted (spec 3, Invariants; 4.6). -/
inductive ControllerEvent where
  | start (key : String)
  | settle (key : String)
  | remove (key : String)
deriving DecidableEq

/-- Modelled from the spec: the internal map of fetcher abort
controllers, represented by its key set: starting an operation stores a
controller for the key, and the controller is released as soon as the
operation settles or the fetcher is deleted, not only on dispose
(spec 3, Invariants; the cleanup test). -/
def controllerStep (m : List String) (e : ControllerEvent) : List String :=
  match e with
  | ControllerEvent.start k => if k ∈ m then m else k :: m
  | ControllerEvent.settle k => m.erase k
  | ControllerEvent.remove k => m.erase k

/-- The controller map key set after a trace of registry events. -/
def controllerRun (es : List ControllerEvent) : List String :=
  es.foldl controllerStep []

/-- Whether a key is inflight after a trace starting from a given inflight
state: its last operation event is a start not yet settled or deleted. -/
def inflightFrom (b : Bool) (es : List ControllerEvent) (k : String) : Bool :=
  es.foldl (fun acc e =>
    match e with
    | ControllerEvent.start j => if j = k then true else acc
    | ControllerEvent.settle j => if j = k then false else acc
    | ControllerEvent.remove j => if j = k then false else acc) b

/-- Whether a key has an unfinished operation after a trace. -/
def inflightAfter (es : List ControllerEvent) (k : String) : Bool :=
  inflightFrom false es k

/-- The registry trace of the cleanup test: two fetches on distinct keys,
then each settles. -/
def controllerTestTrace : List ControllerEvent :=
  [ControllerEvent.start "A", ControllerEvent.start "B",
   ControllerEvent.settle "A", ControllerEvent.settle "B"]

/-- C1: when the default revalidation policy says a loader must run, a
shouldRevalidate return of strict false is the only value that prevents
it (undefined and null still run); when the default policy would skip the
loader, a strict true is the only value that makes it run (truthy
non-boolean values do not). -/
theorem strict_boolean_override (c : LoaderContext) (v : SRValue) :
    (defaultShouldRevalidate c = true →
      (shouldRunLoader c (some v) = false ↔ v = SRValue.bool false)) ∧
    (defaultShouldRevalidate c = false →
      (shouldRunLoader c (some v) = true ↔ v = SRValue.bool true)) := by
  unfold shouldRunLoader applyRevalidateOverride
  refine ⟨fun h => ?_, fun h => ?_⟩ <;> rw [h] <;>
    cases v with
    | bool b => cases b <;> simp
    | _ => simp

/-- Witness for C1 at concrete inputs: null under a default-true regime
still runs the loader; a truthy string under a default-false regime does
not run it. -/
theorem strict_boolean_override_witness :
    shouldRunLoader ctxDefaultTrue (some SRValue.null) = true ∧
    shouldRunLoader ctxDefaultFalse (some (SRValue.str "truthy")) = false := by
  constructor
  · have h := (strict_boolean_override ctxDefaultTrue SRValue.null).1 (by decide)
    cases hb : shouldRunLoader ctxDefaultTrue (some SRValue.null)
    · exact absurd (h.mp hb) (by decide)
    · rfl
  · have h :=
      (strict_boolean_override ctxDefaultFalse (SRValue.str "truthy")).2 (by decide)
    cases hb : shouldRunLoader ctxDefaultFalse (some (SRValue.str "truthy"))
    · rfl
    · exact absurd (h.mp hb) (by decide)

/-- Helper: the flag in force during follow-up navigation i of a redirect
chain is the initial pending flag joined with the headers of the first
i+1 responses. -/
theorem chainRevalidateFlags_get (chain : List RedirectResponse) (flag : Bool) :
    ∀ (i : Nat) (h : i < (chainRevalidateFlags flag chain).length),
      (chainRevalidateFlags flag chain).get ⟨i, h⟩ =
        (flag || (chain.take (i + 1)).any fun r => hasRevalidateHeader r.headers) := by
  induction chain generalizing flag with
  | nil => intro i h; simp [chainRevalidateFlags] at h
  | cons r rest ih =>
    intro i h
    cases i with
    | zero => simp [chainRevalidateFlags]
    | succ n =>
      have h2 : n < (chainRevalidateFlags (flag || hasRevalidateHeader r.headers) rest).length := by
        simpa [chainRevalidateFlags] using h
      have := ih (flag || hasRevalidateHeader r.headers) n h2
      simp only [chainRevalidateFlags, List.get] at this ⊢
      rw [this]
      simp [Bool.or_assoc]

/-- C3 counterexample: in a redirect chain whose first response carries
X-Remix-Revalidate and whose second response does not, the loaders of
reused routes still run on the second follow-up navigation, because the
forced-revalidation flag persists until a navigation completes; the
claim that the second follow-up does not re-run reused routes is false
on this input. -/
theorem chained_redirect_counterexample :
    chainRevalidateFlags false testRedirectChain = [true, true] ∧
    shouldRunLoader (reusedRouteCtx true) none = true := by
  constructor <;> rfl

/-- C3 amended: when a loader redirect response carries
X-Remix-Revalidate, the follow-up navigation and every later follow-up
of the same chain re-run the loaders of all matched routes, reused
routes included; a reused route runs on follow-up i exactly when some
response among the first i+1 of the chain carried the header (or a
forced revalidation was already pending). -/
theorem chained_redirect_revalidation (chain : List RedirectResponse) (flag : Bool)
    (i : Nat) (h : i < (chainRevalidateFlags flag chain).length) :
    (chainRevalidateFlags flag chain).get ⟨i, h⟩ =
      (flag || (chain.take (i + 1)).any fun r => hasRevalidateHeader r.headers) ∧
    ∀ f : Bool, shouldRunLoader (reusedRouteCtx f) none = f := by
  refine ⟨chainRevalidateFlags_get chain flag i h, fun f => ?_⟩
  cases f <;> rfl

/-- Witness for the amended C3 at the concrete chain of the test: on the
second follow-up (no header on the second response) the flag is still
true because the first response carried the header. -/
theorem chained_redirect_revalidation_witness :
    (chainRevalidateFlags false testRedirectChain).get ⟨1, by decide⟩ = true ∧
    shouldRunLoader (reusedRouteCtx true) none = true := by
  have h := chained_redirect_revalidation testRedirectChain false 1 (by decide)
  exact ⟨by rw [h.1]; decide, h.2 true⟩

/-- Helper: when no matched route carries the boundary flag,
lastBoundaryIdx is none and indeed no route below any index is a
boundary. -/
theorem lastBoundaryIdx_none_below :
    ∀ (ms : List RouteEntry), lastBoundaryIdx ms = none →
      ∀ j (hj : j < ms.length), ms[j].hasErrorBoundary = false := by
  intro ms
  induction ms with
  | nil => intro _ j hj; simp at hj
  | cons r rest ih =>
    intro h j hj
    unfold lastBoundaryIdx at h
    cases hr : lastBoundaryIdx rest with
    | some k => rw [hr] at h; exact absurd h (by simp)
    | none =>
      rw [hr] at h
      cases hb : r.hasErrorBoundary with
      | true => rw [hb] at h; simp at h
      | false =>
        cases j with
        | zero => simpa using hb
        | succ n =>
          have hn : n < rest.length := by simpa using hj
          simpa using ih hr n hn

/-- Helper: when lastBoundaryIdx returns an index, that index is in
bounds, the route there carries the boundary flag, and no deeper route
does. -/
theorem lastBoundaryIdx_some_spec :
    ∀ (ms : List RouteEntry) (i : Nat), lastBoundaryIdx ms = some i →
      ∃ hi : i < ms.length, ms[i].hasErrorBoundary = true ∧
        ∀ j (hj : j < ms.length), i < j → ms[j].hasErrorBoundary = false := by
  intro ms
  induction ms with
  | nil => intro i h; simp [lastBoundaryIdx] at h
  | cons r rest ih =>
    intro i h
    unfold lastBoundaryIdx at h
    cases hr : lastBoundaryIdx rest with
    | some k =>
      rw [hr] at h
      simp only [Option.some.injEq] at h
      subst h
      obtain ⟨hk, hb, hafter⟩ := ih k hr
      refine ⟨by simpa using Nat.succ_lt_succ hk, by simpa using hb, ?_⟩
      intro j hj hij
      cases j with
      | zero => omega
      | succ n =>
        have hn : n < rest.length := by simpa using hj
        simpa using hafter n hn (by omega)
    | none =>
      rw [hr] at h
      cases hb : r.hasErrorBoundary with
      | false => rw [hb] at h; simp at h
      | true =>
        rw [hb] at h
        simp at h
        subst h
        refine ⟨by simp, by simpa using hb, ?_⟩
        intro j hj hij
        cases j with
        | zero => omega
        | succ n =>
          have hn : n < rest.length := by simpa using hj
          simpa using lastBoundaryIdx_none_below rest hr n hn

/-- Helper: for a nonempty match list the nearest boundary index is in
bounds. -/
theorem nearestBoundaryIdx_lt (ms : List RouteEntry) (hne : ms ≠ []) :
    nearestBoundaryIdx ms < ms.length := by
  unfold nearestBoundaryIdx
  cases hr : lastBoundaryIdx ms with
  | some k =>
    obtain ⟨hk, -, -⟩ := lastBoundaryIdx_some_spec ms k hr
    simpa using hk
  | none =>
    have : 0 < ms.length := List.length_pos.mpr hne
    simpa using this

/-- Helper: no route strictly deeper than the nearest boundary index
carries the boundary flag, so the boundary really is the nearest one to
the leaf. -/
theorem nearestBoundaryIdx_nearest (ms : List RouteEntry) :
    ∀ j (hj : j < ms.length), nearestBoundaryIdx ms < j →
      ms[j].hasErrorBoundary = false := by
  intro j hj hlt
  unfold nearestBoundaryIdx at hlt
  cases hr : lastBoundaryIdx ms with
  | some k =>
    obtain ⟨hk, -, hafter⟩ := lastBoundaryIdx_some_spec ms k hr
    exact hafter j hj (by rw [hr] at hlt; simpa using hlt)
  | none => exact lastBoundaryIdx_none_below ms hr j hj

/-- Helper: a loader route strictly above the boundary is planned. -/
theorem mem_loadersAboveBoundary (ms : List RouteEntry) (i : Nat)
    (hi : i < ms.length) (hlt : i < nearestBoundaryIdx ms)
    (hl : ms[i].hasLoader = true) :
    ms[i].id ∈ loadersAboveBoundary ms := by
  unfold loadersAboveBoundary
  have hit : i < (ms.take (nearestBoundaryIdx ms)).length := by
    simpa using lt_min hlt hi
  have hmem : ms[i] ∈ ms.take (nearestBoundaryIdx ms) := by
    have := List.getElem_mem hit
    rwa [List.getElem_take] at this
  exact List.mem_map_of_mem (·.id) (List.mem_filter.mpr ⟨hmem, by simpa using hl⟩)

/-- Helper: under unique route ids, the id of a route at or below the
boundary is never planned, in particular the boundary and the targeted
leaf never run their loaders. -/
theorem not_mem_loadersAboveBoundary (ms : List RouteEntry)
    (hnodup : (ms.map (·.id)).Nodup) (j : Nat) (hj : j < ms.length)
    (hge : nearestBoundaryIdx ms ≤ j) :
    ms[j].id ∉ loadersAboveBoundary ms := by
  intro hmem
  set k := nearestBoundaryIdx ms with hk
  have hsub : ms[j].id ∈ (ms.take k).map (·.id) := by
    unfold loadersAboveBoundary at hmem
    obtain ⟨r, hr, hridq⟩ := List.mem_map.mp hmem
    exact List.mem_map.mpr ⟨r, (List.mem_filter.mp hr).1, hridq⟩
  have hdrop : ms[j].id ∈ (ms.drop k).map (·.id) := by
    have hjk : j - k < (ms.drop k).length := by
      simp only [List.length_drop]
      omega
    have : (ms.drop k)[j - k] = ms[j] := by
      rw [List.getElem_drop]
      congr 1
      omega
    exact List.mem_map.mpr ⟨ms[j], this ▸ List.getElem_mem hjk, rfl⟩
  have hsplit : (ms.take k).map (·.id) ++ (ms.drop k).map (·.id) =
      ms.map (·.id) := by
    rw [← List.map_append, List.take_append_drop]
  have hdisj := List.disjoint_of_nodup_append (hsplit ▸ hnodup)
  exact hdisj hsub hdrop

/-- C4: a non-GET navigation whose leaf match has no action commits a 405
ErrorResponse with data No action found for [path], keyed at the nearest
error boundary (the deepest flagged route, the leaf included, or the
root if none is flagged); actionData stays null, every loader route
strictly above the boundary is planned, and no route at or below the
boundary, in particular the route holding the error, runs its loader. -/
theorem submit_without_action_405 (ms : List RouteEntry) (path : String)
    (hne : ms ≠ []) (hnoact : leafHasAction ms = false)
    (hnodup : (ms.map (·.id)).Nodup) :
    ∃ (o : ErrorShortCircuit) (hb : nearestBoundaryIdx ms < ms.length),
      startSubmitNavigation ms path = some (SubmitDispatch.errorOutcome o) ∧
      o.errors = some (ms[nearestBoundaryIdx ms].id,
        ⟨405, "Method Not Allowed", "No action found for [" ++ path ++ "]"⟩) ∧
      o.actionData = none ∧
      (∀ j (hj : j < ms.length), nearestBoundaryIdx ms ≤ j →
        ms[j].id ∉ o.loadersToRun) ∧
      (∀ j (hj : j < ms.length), nearestBoundaryIdx ms < j →
        ms[j].hasErrorBoundary = false) ∧
      (∀ i (hi : i < ms.length), i < nearestBoundaryIdx ms →
        ms[i].hasLoader = true → ms[i].id ∈ o.loadersToRun) := by
  have hblt := nearestBoundaryIdx_lt ms hne
  have hlast : ms.getLast? = some (ms.getLast hne) := List.getLast?_eq_getLast ms hne
  have hact : (ms.getLast hne).hasAction = false := by
    unfold leafHasAction at hnoact
    rw [hlast] at hnoact
    simpa using hnoact
  refine ⟨make405 ms path, hblt, ?_, ?_, rfl, ?_, ?_, ?_⟩
  · unfold startSubmitNavigation
    rw [hlast]
    simp [hact]
  · unfold make405 boundaryIdOf
    rw [List.getElem?_eq_getElem hblt]
    rfl
  · intro j hj hge
    exact not_mem_loadersAboveBoundary ms hnodup j hj hge
  · exact nearestBoundaryIdx_nearest ms
  · intro i hi hlt hl
    exact mem_loadersAboveBoundary ms i hi hlt hl

/-- Witness for C4 at the match list of the 405 test: parent, child,
grandchild where the grandchild leaf carries the boundary flag and no
action. -/
theorem submit_without_action_405_witness :
    ∃ (o : ErrorShortCircuit) (hb : nearestBoundaryIdx matches405 < matches405.length),
      startSubmitNavigation matches405 "/child/grandchild" =
        some (SubmitDispatch.errorOutcome o) ∧
      o.errors = some (matches405[nearestBoundaryIdx matches405].id,
        ⟨405, "Method Not Allowed",
          "No action found for [" ++ "/child/grandchild" ++ "]"⟩) ∧
      o.actionData = none ∧
      (∀ j (hj : j < matches405.length), nearestBoundaryIdx matches405 ≤ j →
        matches405[j].id ∉ o.loadersToRun) ∧
      (∀ j (hj : j < matches405.length), nearestBoundaryIdx matches405 < j →
        matches405[j].hasErrorBoundary = false) ∧
      (∀ i (hi : i < matches405.length), i < nearestBoundaryIdx matches405 →
        matches405[i].hasLoader = true → matches405[i].id ∈ o.loadersToRun) :=
  submit_without_action_405 matches405 "/child/grandchild" (by decide) (by decide)
    (by decide)

/-- C7 counterexample: the binary GET submission of the test targets the
child leaf, which itself carries the boundary flag; the engine keys the
400 error at the child, the targeted route itself, not at a route above
it, so the claim that the error is keyed above the targeted route fails
on this input. -/
theorem binary_get_above_counterexample :
    startGetSubmission matches400 binaryFields =
      GetSubmitDispatch.errorOutcome (make400 matches400) ∧
    (make400 matches400).errors = some ("child",
      ⟨400, "Bad Request", "Cannot submit binary form data using GET"⟩) ∧
    (matches400.getLast?).map (·.id) = some "child" := by
  refine ⟨?_, ?_, ?_⟩ <;> decide

/-- C7 amended: a GET submission containing a binary form field fails
with a 400 ErrorResponse with data Cannot submit binary form data using
GET, keyed at the nearest error boundary at or above the targeted route
(the targeted route itself when it carries the flag); actionData stays
null, loader routes strictly above the boundary are planned, and no
route at or below the boundary, the targeted route included, runs its
loader. -/
theorem binary_get_400 (ms : List RouteEntry) (fields : List FormField)
    (hne : ms ≠ []) (hbin : hasBinaryField fields = true)
    (hnodup : (ms.map (·.id)).Nodup) :
    ∃ (o : ErrorShortCircuit) (hb : nearestBoundaryIdx ms < ms.length),
      startGetSubmission ms fields = GetSubmitDispatch.errorOutcome o ∧
      o.errors = some (ms[nearestBoundaryIdx ms].id,
        ⟨400, "Bad Request", "Cannot submit binary form data using GET"⟩) ∧
      o.actionData = none ∧
      (∀ j (hj : j < ms.length), nearestBoundaryIdx ms ≤ j →
        ms[j].id ∉ o.loadersToRun) ∧
      (∀ j (hj : j < ms.length), nearestBoundaryIdx ms < j →
        ms[j].hasErrorBoundary = false) ∧
      (∀ i (hi : i < ms.length), i < nearestBoundaryIdx ms →
        ms[i].hasLoader = true → ms[i].id ∈ o.loadersToRun) := by
  have hblt := nearestBoundaryIdx_lt ms hne
  refine ⟨make400 ms, hblt, ?_, ?_, rfl, ?_, ?_, ?_⟩
  · unfold startGetSubmission
    rw [hbin]
    simp
  · unfold make400 boundaryIdOf
    rw [List.getElem?_eq_getElem hblt]
    rfl
  · intro j hj hge
    exact not_mem_loadersAboveBoundary ms hnodup j hj hge
  · exact nearestBoundaryIdx_nearest ms
  · intro i hi hlt hl
    exact mem_loadersAboveBoundary ms i hi hlt hl

/-- Witness for the amended C7 at the match list and form data of the
binary GET test. -/
theorem binary_get_400_witness :
    ∃ (o : ErrorShortCircuit) (hb : nearestBoundaryIdx matches400 < matches400.length),
      startGetSubmission matches400 binaryFields =
        GetSubmitDispatch.errorOutcome o ∧
      o.errors = some (matches400[nearestBoundaryIdx matches400].id,
        ⟨400, "Bad Request", "Cannot submit binary form data using GET"⟩) ∧
      o.actionData = none ∧
      (∀ j (hj : j < matches400.length), nearestBoundaryIdx matches400 ≤ j →
        matches400[j].id ∉ o.loadersToRun) ∧
      (∀ j (hj : j < matches400.length), nearestBoundaryIdx matches400 < j →
        matches400[j].hasErrorBoundary = false) ∧
      (∀ i (hi : i < matches400.length), i < nearestBoundaryIdx matches400 →
        matches400[i].hasLoader = true → matches400[i].id ∈ o.loadersToRun) :=
  binary_get_400 matches400 binaryFields (by decide) (by decide) (by decide)

/-- C5: navigating to a URL that differs from the current location only
in its hash runs no loader, commits a location whose key differs from
the previous one, and completes synchronously: no intermediate loading
state is observed, so the navigation is idle immediately after the
call. -/
theorem hash_only_navigation (cur : Location) (p s h : String)
    (routes : List PlannedRoute) (hp : p = cur.pathname)
    (hs : s = cur.search) (hh : h ≠ cur.hash) :
    (navigateGet cur p s h routes).loadersRun = [] ∧
    (navigateGet cur p s h routes).observedStates = [] ∧
    (navigateGet cur p s h routes).committed.hash = h ∧
    (navigateGet cur p s h routes).committed.key ≠ cur.key := by
  unfold navigateGet
  rw [if_pos ⟨hp, hs, hh⟩]
  exact ⟨rfl, rfl, rfl, Nat.succ_ne_self cur.key⟩

/-- Witness for C5 at the hash-change test: from the root location,
navigate to the same path with hash bar. -/
theorem hash_only_navigation_witness :
    (navigateGet hashTestCur "/" "" "#bar" hashTestRoutes).loadersRun = [] ∧
    (navigateGet hashTestCur "/" "" "#bar" hashTestRoutes).observedStates = [] ∧
    (navigateGet hashTestCur "/" "" "#bar" hashTestRoutes).committed.hash = "#bar" ∧
    (navigateGet hashTestCur "/" "" "#bar" hashTestRoutes).committed.key ≠
      hashTestCur.key :=
  hash_only_navigation hashTestCur "/" "" "#bar" hashTestRoutes (by decide)
    (by decide) (by decide)

/-- C6 counterexample: a POST submission that did not request replace and
whose action redirects commits the redirect with PUSH, not REPLACE: in
the test scenario the stack ends as root, foo, bar, baz and a POP of one
lands back on bar. The claim that every action redirect commits REPLACE
is false on this input. -/
theorem action_redirect_push_counterexample :
    commitHistoryAction (actionRedirectCommit false) = HistoryAction.push ∧
    actionRedirectScenario false = ⟨["/", "/foo", "/bar", "/baz"], 3⟩ ∧
    backEntry (actionRedirectScenario false) = some "/bar" := by
  refine ⟨?_, ?_, ?_⟩ <;> decide

/-- C6 amended: an action redirect commits with REPLACE exactly when the
triggering submission requested replace, and with PUSH otherwise; in the
test scenario a POP of one from baz lands on bar without replace and on
foo with it. -/
theorem action_redirect_commit (r : Bool) :
    commitHistoryAction (actionRedirectCommit r) =
      (if r then HistoryAction.replace else HistoryAction.push) ∧
    backEntry (actionRedirectScenario r) =
      some (if r then "/foo" else "/bar") := by
  cases r <;> refine ⟨?_, ?_⟩ <;> decide

/-- C8 counterexample: with hydration data covering only the parent, the
child still has a loader and its id is not covered, yet the engine is
ready at once and the initial load plan is empty, so the child loader
does not run; the claim that uncovered matched routes still load is
false on this input. -/
theorem hydration_skips_all_counterexample :
    routerReady hydrationMatches (some hydrationParentOnly) = true ∧
    initialLoadPlan hydrationMatches (some hydrationParentOnly) = [] ∧
    hydrationMatches[1].hasLoader = true ∧
    (hydrationParentOnly.loaderData.map (·.1)).contains hydrationMatches[1].id
      = false := by
  refine ⟨?_, ?_, ?_, ?_⟩ <;> decide

/-- C8 amended: whenever any hydration data is supplied, in particular
when errors are present or any matched route id appears in its loader
data, the engine reports itself ready immediately and the initial load
runs no loaders at all, covered or not. -/
theorem hydration_ready (ms : List RouteEntry) (hd : HydrationData) :
    routerReady ms (some hd) = true ∧ initialLoadPlan ms (some hd) = [] := by
  constructor
  · simp [routerReady]
  · simp [initialLoadPlan, routerReady]

/-- C2: for a given fetcher key, starting a new submission aborts the
older inflight operation; a start never changes the committed data; a
late settlement of an aborted operation changes nothing; and a
settlement of a non-aborted operation commits its result; hence the
committed data is always the result of the most recent non-aborted
settlement. -/
theorem fetcher_submission_order (t : List FetchEvent) (i j r : Nat) :
    ((fetchRun t).inflight = some j →
      j ∈ (fetchRun (t ++ [FetchEvent.start i])).aborted) ∧
    ((fetchRun (t ++ [FetchEvent.start i])).data = (fetchRun t).data) ∧
    (j ∈ (fetchRun t).aborted →
      fetchRun (t ++ [FetchEvent.settle j r]) = fetchRun t) ∧
    (j ∉ (fetchRun t).aborted →
      (fetchRun (t ++ [FetchEvent.settle j r])).data = some r) := by
  have happ : ∀ e, fetchRun (t ++ [e]) = fetchStep (fetchRun t) e := by
    intro e
    unfold fetchRun
    rw [List.foldl_append]
    rfl
  refine ⟨?_, ?_, ?_, ?_⟩
  · intro hin
    rw [happ]
    unfold fetchStep
    rw [hin]
    simp
  · rw [happ]
    unfold fetchStep
    cases (fetchRun t).inflight <;> rfl
  · intro hab
    rw [happ]
    unfold fetchStep
    simp [hab]
  · intro hab
    rw [happ]
    unfold fetchStep
    simp [hab]

/-- Witness for C2 at the trace of the fetcher ordering test: operation 1
starts, operation 2 starts and aborts it; the late settlement of 1 is
discarded while the settlement of 2 commits. -/
theorem fetcher_submission_order_witness :
    1 ∈ (fetchRun ([FetchEvent.start 1] ++ [FetchEvent.start 2])).aborted ∧
    fetchRun ([FetchEvent.start 1, FetchEvent.start 2] ++
        [FetchEvent.settle 1 101]) =
      fetchRun [FetchEvent.start 1, FetchEvent.start 2] ∧
    (fetchRun ([FetchEvent.start 1, FetchEvent.start 2] ++
        [FetchEvent.settle 2 202])).data = some 202 := by
  refine ⟨?_, ?_, ?_⟩
  · exact (fetcher_submission_order [FetchEvent.start 1] 2 1 0).1 (by decide)
  · exact (fetcher_submission_order [FetchEvent.start 1, FetchEvent.start 2]
      0 1 101).2.2.1 (by decide)
  · exact (fetcher_submission_order [FetchEvent.start 1, FetchEvent.start 2]
      0 2 202).2.2.2 (by decide)

/-- Helper: the fold computing the deepest success status equals the last
success status in the list, with the initial value as default. -/
theorem successStatus_foldl_eq (l : List DataResult) :
    ∀ init : Nat,
      l.foldl (fun acc r => match r with | DataResult.ok s => s | _ => acc) init =
        ((l.filterMap statusOfOk).getLast?).getD init := by
  induction l with
  | nil => intro init; rfl
  | cons r t ih =>
    intro init
    cases r with
    | ok s =>
      simp only [List.foldl_cons, List.filterMap_cons, statusOfOk]
      rw [ih s]
      cases hxs : t.filterMap statusOfOk with
      | nil => simp
      | cons x xs =>
        obtain ⟨y, hy⟩ : ∃ y, (x :: xs).getLast? = some y :=
          ⟨(x :: xs).getLast (by simp), List.getLast?_eq_getLast _ (by simp)⟩
        rw [List.getLast?_cons_cons, hy]
        rfl
    | errorResponse s =>
      simp only [List.foldl_cons, List.filterMap_cons, statusOfOk]
      exact ih init
    | errorThrown =>
      simp only [List.foldl_cons, List.filterMap_cons, statusOfOk]
      exact ih init

/-- Helper: a list of non-error results contributes no error status. -/
theorem filterMap_errorStatusOf_nil (l : List DataResult)
    (h : ∀ x ∈ l, isErrorResult x = false) :
    l.filterMap errorStatusOf = [] := by
  rw [List.filterMap_eq_nil_iff]
  intro x hx
  cases x with
  | ok s => rfl
  | errorResponse s => exact absurd (h _ hx) (by simp [isErrorResult])
  | errorThrown => exact absurd (h _ hx) (by simp [isErrorResult])

/-- C9: the statusCode of the static handler query context equals: the
action response status when the submission succeeded; the deepest loader
response status, 200 by default, when no error exists; and, when errors
exist, the status of the shallowest error, a thrown Response error
contributing its own status, an uncaught non-Response error contributing
500, and a failed action contributing at the leaf. -/
theorem query_status_code (a : Option DataResult) (l : List DataResult) :
    (∀ s, a = some (DataResult.ok s) → queryStatusCode a l = s) ∧
    (a = none → (∀ x ∈ l, isErrorResult x = false) →
      queryStatusCode a l = ((l.filterMap statusOfOk).getLast?).getD 200) ∧
    (∀ l1 e l2, a = none → l = l1 ++ e :: l2 → isErrorResult e = true →
      (∀ x ∈ l1, isErrorResult x = false) →
      queryStatusCode a l = (errorStatusOf e).getD 500) ∧
    (∀ s, a = some (DataResult.errorResponse s) →
      (∀ x ∈ l, isErrorResult x = false) → queryStatusCode a l = s) ∧
    (a = some DataResult.errorThrown → (∀ x ∈ l, isErrorResult x = false) →
      queryStatusCode a l = 500) := by
  refine ⟨?_, ?_, ?_, ?_, ?_⟩
  · intro s h
    subst h
    rfl
  · intro ha hl
    subst ha
    unfold queryStatusCode
    rw [show errorStatuses none l = [] by
      simp [errorStatuses, filterMap_errorStatusOf_nil l hl]]
    simpa [successStatus] using successStatus_foldl_eq l 200
  · intro l1 e l2 ha hsplit he hl1
    subst ha
    subst hsplit
    unfold queryStatusCode
    have : errorStatuses none (l1 ++ e :: l2) =
        (errorStatusOf e).getD 500 ::
          ((errorStatusOf e).toList.tail ++ l2.filterMap errorStatusOf) := by
      cases e with
      | ok s => exact absurd he (by simp [isErrorResult])
      | errorResponse s =>
        simp [errorStatuses, List.filterMap_append,
          filterMap_errorStatusOf_nil l1 hl1, errorStatusOf]
      | errorThrown =>
        simp [errorStatuses, List.filterMap_append,
          filterMap_errorStatusOf_nil l1 hl1, errorStatusOf]
    rw [this]
  · intro s ha hl
    subst ha
    unfold queryStatusCode
    rw [show errorStatuses (some (DataResult.errorResponse s)) l = [s] by
      simp [errorStatuses, filterMap_errorStatusOf_nil l hl]]
  · intro ha hl
    subst ha
    unfold queryStatusCode
    rw [show errorStatuses (some DataResult.errorThrown) l = [500] by
      simp [errorStatuses, filterMap_errorStatusOf_nil l hl]]

/-- Witness for C9 at the status code tests: a successful action with
status 203 wins over loader statuses 201 and 202; without an action the
deepest loader status 202 wins; a shallow thrown Response with status
400 wins over a deeper uncaught error. -/
theorem query_status_code_witness :
    queryStatusCode (some (DataResult.ok 203))
      [DataResult.ok 201, DataResult.ok 202] = 203 ∧
    queryStatusCode none [DataResult.ok 201, DataResult.ok 202] = 202 ∧
    queryStatusCode none
      [DataResult.errorResponse 400, DataResult.errorThrown] = 400 := by
  refine ⟨?_, ?_, ?_⟩
  · exact (query_status_code (some (DataResult.ok 203))
      [DataResult.ok 201, DataResult.ok 202]).1 203 rfl
  · have h := (query_status_code none
      [DataResult.ok 201, DataResult.ok 202]).2.1 rfl (by decide)
    simpa using h
  · have h := (query_status_code none
      [DataResult.errorResponse 400, DataResult.errorThrown]).2.2.1
      [] (DataResult.errorResponse 400) [DataResult.errorThrown]
      rfl rfl (by decide) (by decide)
    simpa using h

/-- Helper: one registry step keeps the controller key set free of
duplicates. -/
theorem controllerStep_nodup_one (m : List String) (hm : m.Nodup)
    (e : ControllerEvent) : (controllerStep m e).Nodup := by
  cases e with
  | start k =>
    by_cases hk : k ∈ m
    · simpa [controllerStep, hk] using hm
    · simpa [controllerStep, hk] using hm
  | settle k => exact hm.erase k
  | remove k => exact hm.erase k

/-- Helper: any trace of registry steps keeps the controller key set free
of duplicates. -/
theorem controllerRun_nodup_aux :
    ∀ (es : List ControllerEvent) (m : List String), m.Nodup →
      (es.foldl controllerStep m).Nodup := by
  intro es
  induction es with
  | nil => intro m hm; simpa using hm
  | cons e t ih =>
    intro m hm
    rw [List.foldl_cons]
    exact ih _ (controllerStep_nodup_one m hm e)

/-- Helper: one registry step changes membership of a key exactly as the
per-key inflight projection prescribes. -/
theorem controllerStep_mem (m : List String) (hm : m.Nodup)
    (e : ControllerEvent) (k : String) :
    decide (k ∈ controllerStep m e) =
      (match e with
       | ControllerEvent.start j => if j = k then true else decide (k ∈ m)
       | ControllerEvent.settle j => if j = k then false else decide (k ∈ m)
       | ControllerEvent.remove j => if j = k then false else decide (k ∈ m)) := by
  cases e with
  | start j =>
    by_cases hjk : j = k
    · subst hjk
      by_cases hk : j ∈ m <;> simp [controllerStep, hk]
    · by_cases hj : j ∈ m <;>
        simp [controllerStep, hj, List.mem_cons, Ne.symm hjk, hjk]
  | settle j =>
    by_cases hjk : j = k
    · subst hjk
      simp [controllerStep, hm.mem_erase_iff]
    · simp [controllerStep, hm.mem_erase_iff, hjk, Ne.symm hjk]
  | remove j =>
    by_cases hjk : j = k
    · subst hjk
      simp [controllerStep, hm.mem_erase_iff]
    · simp [controllerStep, hm.mem_erase_iff, hjk, Ne.symm hjk]

/-- Helper: over a whole trace, membership in the controller key set
coincides with the per-key inflight projection. -/
theorem controller_mem_aux :
    ∀ (es : List ControllerEvent) (m : List String) (k : String), m.Nodup →
      (k ∈ es.foldl controllerStep m ↔
        inflightFrom (decide (k ∈ m)) es k = true) := by
  intro es
  induction es with
  | nil => intro m k hm; simp [inflightFrom]
  | cons e t ih =>
    intro m k hm
    rw [List.foldl_cons]
    have hstep := ih (controllerStep m e) k (controllerStep_nodup_one m hm e)
    rw [hstep]
    unfold inflightFrom
    rw [List.foldl_cons, controllerStep_mem m hm e k]

/-- C10: the internal map of fetcher abort controllers holds exactly one
entry per inflight fetcher operation: its key set has no duplicates, a
key is present exactly when its operation has started and not yet
settled or been deleted, and as soon as every operation has settled the
map is empty, with no dispose call needed. -/
theorem controller_cleanup (es : List ControllerEvent) :
    (controllerRun es).Nodup ∧
    (∀ k, k ∈ controllerRun es ↔ inflightAfter es k = true) ∧
    ((∀ k, inflightAfter es k = false) → controllerRun es = []) := by
  have hmem : ∀ k, k ∈ controllerRun es ↔ inflightAfter es k = true := by
    intro k
    have h := controller_mem_aux es [] k (by simp)
    have h0 : decide (k ∈ ([] : List String)) = false := by simp
    rw [h0] at h
    exact h
  refine ⟨controllerRun_nodup_aux es [] (by simp), hmem, ?_⟩
  intro hall
  rw [List.eq_nil_iff_forall_not_mem]
  intro k hk
  have := (hmem k).mp hk
  rw [hall k] at this
  exact absurd this (by simp)

/-- Witness for C10 at the trace of the cleanup test: keys A and B start,
then both settle, and the controller map ends empty. -/
theorem controller_cleanup_witness :
    controllerRun controllerTestTrace = [] := by
  refine (controller_cleanup controllerTestTrace).2.2 ?_
  intro k
  by_cases hA : "A" = k
  · subst hA
    decide
  · by_cases hB : "B" = k
    · subst hB
      decide
    · simp [inflightAfter, inflightFrom, controllerTestTrace, hA, hB]

end RouterModel
